import Mathlib

/-!
Verification of `include/linux/memremap.h` (device-backed memory regions,
ZONE_DEVICE): shallow embedding of the data model and the operations
declared there, plus models, built from the design spec, of the operations
whose implementations live outside this header excerpt
(kernel/memremap.c, mm/sparse-vmemmap.c, mm/swap.c).

Frame numbers (pfn), device identities, percpu_ref identities and private
data pointers are modelled as `Nat`.  Physical ranges are kept in frame
units.  C function pointers that may be NULL are modelled as `Bool`
("a handler is supplied").
-/

namespace Memremap

/-- The C `enum memory_type` from memremap.h: the specializations of ZONE_DEVICE
memory (persistent host-visible memory, CPU-inaccessible device-private
memory, cache-coherent device-public memory, PCI peer-to-peer DMA BARs). -/
inductive memory_type where
  | MEMORY_DEVICE_HOST
  | MEMORY_DEVICE_PRIVATE
  | MEMORY_DEVICE_PUBLIC
  | MEMORY_DEVICE_PCI_P2PDMA
deriving DecidableEq

/-- The C `struct vmem_altmap`: pre-allocated storage for vmemmap_populate.
Fields exactly as in the header: `base_pfn` is the base of the entire
dev_pagemap mapping, `reserve` the pages reserved for driver use, `free`
the free pages set aside for memmap storage, `align` the pages reserved to
meet allocation alignments, `alloc` the count of pages consumed. -/
structure vmem_altmap where
  base_pfn : Nat
  reserve : Nat
  free : Nat
  align : Nat
  alloc : Nat
deriving DecidableEq

/-- The C `struct resource` (external collaborator): the physical range covered
by a mapping, kept here in frame units as a start frame and a frame count. -/
structure Resource where
  start : Nat
  size : Nat
deriving DecidableEq

/-- The C `struct dev_pagemap`: metadata for a ZONE_DEVICE mapping.  The two
callback pointers `page_fault` / `page_free` are modelled by whether a
(non-NULL) handler is supplied; `ref` is the identity of the percpu_ref
that pins the mapping; `dev` and `data` are opaque pointers. -/
structure dev_pagemap where
  page_fault : Bool
  page_free : Bool
  altmap : vmem_altmap
  altmap_valid : Bool
  res : Resource
  ref : Nat
  dev : Nat
  data : Nat
  type : memory_type
  pci_p2pdma_bus_offset : Nat
deriving DecidableEq

/-- The C `struct page` (external, from linux/mm.h): only the two facts this
header reads are modelled — whether the page sits in ZONE_DEVICE, and the
`page->pgmap` back-reference to its owning region. -/
structure page where
  zone_device : Bool
  pgmap : dev_pagemap
deriving DecidableEq

/-- The predicate `is_zone_device_page` is declared in the header but defined in the
external page-frame collaborator (it tests the page's zone): it reads the
page's ZONE_DEVICE classification bit. -/
def is_zone_device_page (p : page) : Bool :=
  p.zone_device

/-- The predicate `is_pci_p2pdma_page` with CONFIG_PCI_P2PDMA enabled:
`is_zone_device_page(page) && page->pgmap->type == MEMORY_DEVICE_PCI_P2PDMA`. -/
def is_pci_p2pdma_page (p : page) : Bool :=
  is_zone_device_page p && decide (p.pgmap.type = memory_type.MEMORY_DEVICE_PCI_P2PDMA)

/-- The predicate `is_pci_p2pdma_page` from the `#else` branch, i.e. with
CONFIG_PCI_P2PDMA disabled: `return false;`. -/
def is_pci_p2pdma_page_nop2pdma (p : page) : Bool :=
  false

/-- The predicate `is_device_private_page` (CONFIG_DEVICE_PRIVATE/PUBLIC branch):
`is_zone_device_page(page) && page->pgmap->type == MEMORY_DEVICE_PRIVATE`. -/
def is_device_private_page (p : page) : Bool :=
  is_zone_device_page p && decide (p.pgmap.type = memory_type.MEMORY_DEVICE_PRIVATE)

/-- The predicate `is_device_public_page` (CONFIG_DEVICE_PRIVATE/PUBLIC branch):
`is_zone_device_page(page) && page->pgmap->type == MEMORY_DEVICE_PUBLIC`. -/
def is_device_public_page (p : page) : Bool :=
  is_zone_device_page p && decide (p.pgmap.type = memory_type.MEMORY_DEVICE_PUBLIC)

/-- The state of the external generic reference-counting collaborator: the
value of each `percpu_ref`, keyed by its identity.  Counts are integers so
a decrement is exact. -/
def RefCounts : Type := Nat → Int

/-- The function `percpu_ref_put` (external primitive consumed by this header): an
atomic decrement of the designated reference count. -/
def percpu_ref_put (r : Nat) (s : RefCounts) : RefCounts :=
  fun x => if x = r then s x - 1 else s x

/-- The function `put_dev_pagemap`: `if (pgmap) percpu_ref_put(pgmap->ref);` — the
pgmap pointer may be NULL, hence `Option dev_pagemap`. -/
def put_dev_pagemap (pgmap : Option dev_pagemap) (s : RefCounts) : RefCounts :=
  match pgmap with
  | none => s
  | some g => percpu_ref_put g.ref s

/-- The function `devm_memremap_pages` from the `#else CONFIG_ZONE_DEVICE` branch: with
ZONE_DEVICE support compiled out every call fails, returning
`ERR_PTR(-ENXIO)` (modelled as `Except.error (-ENXIO)`), so that callers
fall back to plain devm_memremap; Linux errno 6 is "No such device
or address". -/
def devm_memremap_pages_nodevice (dev : Nat) (pgmap : dev_pagemap) :
    Except Int (List dev_pagemap) :=
  Except.error (-6)

/-- The function `get_dev_pagemap` from the `#else CONFIG_ZONE_DEVICE` branch: with
ZONE_DEVICE support compiled out every lookup returns NULL. -/
def get_dev_pagemap_nodevice (pfn : Nat) (pgmap : Option dev_pagemap) :
    Option dev_pagemap :=
  none

/-- The function `vmem_altmap_offset` from the `#else CONFIG_ZONE_DEVICE` branch:
returns 0. -/
def vmem_altmap_offset_nodevice (altmap : vmem_altmap) : Nat :=
  0

/-- A frame number lies inside a physical range:
`start <= pfn < start + size`. -/
def pfn_in_range (r : Resource) (pfn : Nat) : Bool :=
  decide (r.start ≤ pfn) && decide (pfn < r.start + r.size)

/-- Two regions have disjoint physical ranges (one ends at or before the
other starts). -/
def ranges_disjoint (a b : dev_pagemap) : Prop :=
  a.res.start + a.res.size ≤ b.res.start ∨ b.res.start + b.res.size ≤ a.res.start

instance : DecidableRel ranges_disjoint :=
  fun a b => inferInstanceAs (Decidable (_ ∨ _))

/-- Two physical ranges overlap: each one starts before the other ends
(false whenever either range is empty). -/
def ranges_overlap (a b : Resource) : Bool :=
  decide (a.start < b.start + b.size) && decide (b.start < a.start + a.size)

/-- Modelled from the spec: the Region Registry's state.  The
CONFIG_ZONE_DEVICE implementation of registration and lookup lives in
kernel/memremap.c, which is not part of this excerpt; per spec section 4.2
the registry maps physical frame ranges to the registered regions, so it
is modelled as the list of live region records. -/
abbrev Registry : Type := List dev_pagemap

/-- Modelled from the spec: `get_dev_pagemap` with CONFIG_ZONE_DEVICE
enabled (implementation in kernel/memremap.c, absent from this excerpt).
Per spec section 4.2, `lookup(frame_number)` searches the registered
ranges and returns the region whose range contains the frame, or None.
The single-entry cache the spec mentions is a pure short-circuit and does
not change the result, so it is not modelled. -/
def get_dev_pagemap (regs : Registry) (pfn : Nat) : Option dev_pagemap :=
  regs.find? (fun g => pfn_in_range g.res pfn)

/-- Modelled from the spec: the error taxonomy of `register`
(spec section 4.2): overlap with a live region, a CPU-inaccessible type
without a fault handler, or exhaustion of the metadata reservation. -/
inductive RegisterError where
  | Overlap
  | MissingFaultHandler
  | AllocatorExhausted
deriving DecidableEq

/-- Modelled from the spec: `devm_memremap_pages` with CONFIG_ZONE_DEVICE
enabled (implementation in kernel/memremap.c, absent from this excerpt).
Per spec section 4.2, registration fails if `memory_type` is
inaccessible-to-CPU (device-private) and no fault handler is supplied, or
if the new range overlaps any live region; on success the range is
recorded in the registry.  Materializing per-frame bookkeeping involves
the external frame-table collaborator and is elided; the registry insert
itself is what the claims here observe. -/
def devm_memremap_pages (regs : Registry) (pgmap : dev_pagemap) :
    Except RegisterError Registry :=
  if pgmap.type = memory_type.MEMORY_DEVICE_PRIVATE ∧ pgmap.page_fault = false then
    Except.error RegisterError.MissingFaultHandler
  else if regs.any (fun g => ranges_overlap g.res pgmap.res) then
    Except.error RegisterError.Overlap
  else
    Except.ok (pgmap :: regs)

/-- Modelled from the spec: the metadata allocator's `allocate`
(the CONFIG_ZONE_DEVICE implementation behind `vmem_altmap` lives in
mm/sparse-vmemmap.c, absent from this excerpt).  Per spec section 4.1,
`allocate(count)` first consumes from `align` (the pages reserved to meet
allocation alignments — `pad` is the padding the platform's required
alignment demands for this request), then decrements `free` by the count
and tracks the count in `alloc`; it fails, leaving the reservation
untouched, when the padding or the request cannot be satisfied. -/
def vmem_altmap_alloc (m : vmem_altmap) (nr_pfns pad : Nat) : Option vmem_altmap :=
  if pad ≤ m.align ∧ nr_pfns ≤ m.free then
    some { m with
      align := m.align - pad
      free := m.free - nr_pfns
      alloc := m.alloc + nr_pfns }
  else
    none

/-- Modelled from the spec: `vmem_altmap_free` (declared in the header for
CONFIG_ZONE_DEVICE, implementation absent from this excerpt).  Per spec
sections 4.1 and 9, `free(nr_frames)` reclaims frames only from the most
recently allocated tail — strict stack discipline over the `alloc`
cursor — returning them to `free`; a free of more than the outstanding
allocation is rejected, not silently absorbed. -/
def vmem_altmap_free (m : vmem_altmap) (nr_pfns : Nat) : Option vmem_altmap :=
  if nr_pfns ≤ m.alloc then
    some { m with
      alloc := m.alloc - nr_pfns
      free := m.free + nr_pfns }
  else
    none

/-- An allocator request: an allocation of `nr` frames needing `pad`
padding frames, or a free of `nr` frames. -/
inductive AltmapOp where
  | alloc (nr pad : Nat)
  | free (nr : Nat)

/-- One allocator request applied to a reservation; a rejected request
leaves the reservation unchanged. -/
def altmap_step (m : vmem_altmap) : AltmapOp → vmem_altmap
  | AltmapOp.alloc nr pad => (vmem_altmap_alloc m nr pad).getD m
  | AltmapOp.free nr => (vmem_altmap_free m nr).getD m

/-- A sequence of allocator requests applied in order. -/
def altmap_run (m : vmem_altmap) (ops : List AltmapOp) : vmem_altmap :=
  ops.foldl altmap_step m

/-- Modelled from the spec: teardown's effect on the Region Registry.
`unregister(handle)` (kernel/memremap.c, absent from this excerpt) removes
the region's range from the registry (spec section 4.2). -/
def unregister (g : dev_pagemap) (regs : Registry) : Registry :=
  regs.filter (fun x => decide ¬(x = g))

/-- A pin operation on a region's lifecycle: `acquire` increments the
shared count, `release` decrements it. -/
inductive PinOp where
  | acquire
  | release

/-- The Lifecycle Controller's state for one tracked region: the live
registry, the region's pin count, and how many times teardown has invoked
`unregister` for it. -/
structure LifecycleState where
  regs : Registry
  count : Nat
  teardowns : Nat
deriving DecidableEq

/-- Modelled from the spec: one atomic pin operation of the Lifecycle
Controller (the percpu_ref release path and teardown live in
kernel/memremap.c, absent from this excerpt).  Per spec sections 4.3 and
5: acquire and release are atomic and linearizable, so an interleaving is
a sequence; acquiring a dead region (count zero) is not possible; when a
release transitions the count to zero, teardown runs: it invokes
`unregister` on the Region Registry, invalidating the range; decrementing
past zero (double-release) is a fatal caller error, never absorbed. -/
def pin_step (g : dev_pagemap) (s : LifecycleState) : PinOp → Option LifecycleState
  | PinOp.acquire =>
      if s.count = 0 then none else some { s with count := s.count + 1 }
  | PinOp.release =>
      match s.count with
      | 0 => none
      | 1 => some { regs := unregister g s.regs, count := 0, teardowns := s.teardowns + 1 }
      | n + 2 => some { s with count := n + 1 }

/-- A sequence of pin operations applied in order; an illegal operation
aborts the run. -/
def pin_run (g : dev_pagemap) (s : LifecycleState) : List PinOp → Option LifecycleState
  | [] => some s
  | op :: ops =>
      match pin_step g s op with
      | none => none
      | some s' => pin_run g s' ops

/-- The state right after `g` is registered alongside regions `regs`: the
registering caller holds the one pin. -/
def pin_init (g : dev_pagemap) (regs : Registry) : LifecycleState :=
  { regs := g :: regs, count := 1, teardowns := 0 }

/-- A device-backed frame's release-path state: its ordinary reference
count and how many times the region's `page_free` callback has run on it. -/
structure FrameState where
  count : Nat
  free_calls : Nat
deriving DecidableEq

/-- A reference-count operation on a frame: `get` takes a reference,
`put` drops one. -/
inductive FrameOp where
  | get
  | put

/-- Modelled from the spec: the generic frame-release path for a
ZONE_DEVICE page (mm code, absent from this excerpt), following the
header's contract: the `page_free()` callback is called once the page
refcount reaches 1, and ZONE_DEVICE pages never reach 0 refcount unless
there is a refcount bug.  `get` takes an ordinary reference (only while
the region has not yet reclaimed the frame via `page_free`); `put` at
refcount 1 would drop the count to 0 and is the refcount bug the header
rules out, so it is not a legal step; a `put` that lands on refcount 1
fires `page_free`. -/
def frame_step (s : FrameState) : FrameOp → Option FrameState
  | FrameOp.get =>
      if s.free_calls = 0 then some { s with count := s.count + 1 } else none
  | FrameOp.put =>
      match s.count with
      | 0 => none
      | 1 => none
      | n + 2 =>
          some { count := n + 1
                 free_calls := if n = 0 then s.free_calls + 1 else s.free_calls }

/-- A sequence of frame reference-count operations applied in order; an
illegal operation aborts the run. -/
def frame_run (s : FrameState) : List FrameOp → Option FrameState
  | [] => some s
  | op :: ops =>
      match frame_step s op with
      | none => none
      | some s' => frame_run s' ops

/-- A device-backed frame as first exposed by its region: refcount 1
("no ordinary holder, but the region still owns it"), callback not yet
fired. -/
def frame_init : FrameState :=
  { count := 1, free_calls := 0 }

/-- A sample region record for concrete instantiations: a range of `size`
frames starting at frame `start`, of the given memory type, with or
without a fault handler. -/
def mkRegion (start size : Nat) (t : memory_type) (pf : Bool) : dev_pagemap :=
  { page_fault := pf
    page_free := true
    altmap := { base_pfn := start, reserve := 0, free := 0, align := 0, alloc := 0 }
    altmap_valid := false
    res := { start := start, size := size }
    ref := 0
    dev := 0
    data := 0
    type := t
    pci_p2pdma_bus_offset := 0 }

end Memremap

namespace Memremap

/-- Disjointness of region ranges is symmetric. -/
theorem ranges_disjoint_symm : Symmetric ranges_disjoint :=
  fun _ _ h => Or.symm h

/-- No frame lies in both of two disjoint ranges. -/
theorem ranges_disjoint_not_both {a b : dev_pagemap} {pfn : Nat}
    (hd : ranges_disjoint a b) (ha : pfn_in_range a.res pfn = true)
    (hb : pfn_in_range b.res pfn = true) : False := by
  simp only [pfn_in_range, Bool.and_eq_true, decide_eq_true_eq] at ha hb
  rcases hd with h | h <;> omega

/-- C1: over a registry of pairwise-disjoint regions, `get_dev_pagemap`
applied to any frame number returns exactly the region whose range
contains that frame, and returns None exactly when no registered region's
range contains it. -/
theorem get_dev_pagemap_lookup_correct (regs : Registry)
    (hdisj : List.Pairwise ranges_disjoint regs) (pfn : Nat) :
    (∀ g : dev_pagemap,
      get_dev_pagemap regs pfn = some g ↔ g ∈ regs ∧ pfn_in_range g.res pfn = true) ∧
    (get_dev_pagemap regs pfn = none ↔
      ∀ g ∈ regs, pfn_in_range g.res pfn = false) := by
  have hnone : get_dev_pagemap regs pfn = none ↔
      ∀ g ∈ regs, pfn_in_range g.res pfn = false := by
    unfold get_dev_pagemap
    rw [List.find?_eq_none]
    constructor
    · intro h g hg
      exact Bool.not_eq_true _ ▸ h g hg
    · intro h g hg
      simp [h g hg]
  refine ⟨?_, hnone⟩
  intro g
  constructor
  · intro h
    simp only [get_dev_pagemap] at h
    have hp := List.find?_some h
    simp only [] at hp
    exact ⟨List.mem_of_find?_eq_some h, hp⟩
  · rintro ⟨hmem, hin⟩
    cases hfind : get_dev_pagemap regs pfn with
    | none =>
      exact absurd hin (by simp [hnone.mp hfind g hmem])
    | some g' =>
      have hfind' : regs.find? (fun x => pfn_in_range x.res pfn) = some g' := hfind
      have hmem' : g' ∈ regs := List.mem_of_find?_eq_some hfind'
      have hin' := List.find?_some hfind'
      simp only [] at hin'
      by_cases hgg : g' = g
      · rw [hgg]
      · exact (ranges_disjoint_not_both
          (List.Pairwise.forall ranges_disjoint_symm hdisj hmem' hmem hgg) hin' hin).elim

/-- C1 witness: two disjoint regions, frame 12 resolves to the second. -/
theorem get_dev_pagemap_lookup_correct_witness :
    get_dev_pagemap
      [mkRegion 0 10 memory_type.MEMORY_DEVICE_HOST true,
       mkRegion 10 10 memory_type.MEMORY_DEVICE_PCI_P2PDMA true] 12 =
      some (mkRegion 10 10 memory_type.MEMORY_DEVICE_PCI_P2PDMA true) :=
  ((get_dev_pagemap_lookup_correct
      [mkRegion 0 10 memory_type.MEMORY_DEVICE_HOST true,
       mkRegion 10 10 memory_type.MEMORY_DEVICE_PCI_P2PDMA true]
      (by decide) 12).1
    (mkRegion 10 10 memory_type.MEMORY_DEVICE_PCI_P2PDMA true)).2
    ⟨by decide, by decide⟩

/-- C4: registering a region whose memory type is device-private
(CPU-inaccessible) while its callback table supplies no fault handler
fails with the configuration error MissingFaultHandler, whatever the
registry state and the region's other fields. -/
theorem devm_memremap_pages_requires_fault_handler (regs : Registry)
    (pgmap : dev_pagemap)
    (htype : pgmap.type = memory_type.MEMORY_DEVICE_PRIVATE)
    (hpf : pgmap.page_fault = false) :
    devm_memremap_pages regs pgmap = Except.error RegisterError.MissingFaultHandler := by
  unfold devm_memremap_pages
  rw [if_pos ⟨htype, hpf⟩]

/-- C4 witness: a device-private region without a fault handler is
rejected at a concrete registry. -/
theorem devm_memremap_pages_requires_fault_handler_witness :
    devm_memremap_pages [] (mkRegion 0 10 memory_type.MEMORY_DEVICE_PRIVATE false) =
      Except.error RegisterError.MissingFaultHandler :=
  devm_memremap_pages_requires_fault_handler []
    (mkRegion 0 10 memory_type.MEMORY_DEVICE_PRIVATE false) (by decide) (by decide)

/-- C3: with CONFIG_ZONE_DEVICE compiled out, `devm_memremap_pages` fails
with -ENXIO (capability unavailable) for every device and every request,
and `get_dev_pagemap` returns NULL for every frame number and every cached
hint — both regardless of any prior state, being constant functions of
their arguments. -/
theorem zone_device_compiled_out_register_fails_lookup_none :
    (∀ (dev : Nat) (pgmap : dev_pagemap),
      devm_memremap_pages_nodevice dev pgmap = Except.error (-6)) ∧
    (∀ (pfn : Nat) (pgmap : Option dev_pagemap),
      get_dev_pagemap_nodevice pfn pgmap = none) := by
  exact ⟨fun _ _ => rfl, fun _ _ => rfl⟩

/-- C7: each classification predicate holds of a page exactly when the
page is device-backed (ZONE_DEVICE) and its region's `memory_type` carries
the corresponding tag; the predicates read only `is_zone_device_page` and
the region's `type` field, no separate state. -/
theorem classification_predicates_iff_type :
    ∀ p : page,
      (is_device_private_page p = true ↔
        is_zone_device_page p = true ∧ p.pgmap.type = memory_type.MEMORY_DEVICE_PRIVATE) ∧
      (is_device_public_page p = true ↔
        is_zone_device_page p = true ∧ p.pgmap.type = memory_type.MEMORY_DEVICE_PUBLIC) ∧
      (is_pci_p2pdma_page p = true ↔
        is_zone_device_page p = true ∧ p.pgmap.type = memory_type.MEMORY_DEVICE_PCI_P2PDMA) := by
  intro p
  refine ⟨?_, ?_, ?_⟩ <;>
    simp [is_device_private_page, is_device_public_page, is_pci_p2pdma_page]

/-- C9: `put_dev_pagemap` on a NULL pgmap leaves the reference-count state
unchanged and performs no decrement; on a non-NULL pgmap it decrements
exactly the count of `pgmap->ref` by one and touches no other count. -/
theorem put_dev_pagemap_null_safe :
    (∀ s : RefCounts, put_dev_pagemap none s = s) ∧
    (∀ (g : dev_pagemap) (s : RefCounts) (r : Nat),
      put_dev_pagemap (some g) s r = if r = g.ref then s r - 1 else s r) := by
  exact ⟨fun _ => rfl, fun _ _ _ => rfl⟩

/-- C10: with CONFIG_PCI_P2PDMA compiled out, `is_pci_p2pdma_page` returns
false for every page — in particular also for a ZONE_DEVICE page whose
region's type is MEMORY_DEVICE_PCI_P2PDMA. -/
theorem pci_p2pdma_compiled_out_always_false :
    ∀ p : page, is_pci_p2pdma_page_nop2pdma p = false := by
  exact fun _ => rfl

/-- C5: whenever `allocate(n)` succeeds, an immediate `free(n)` succeeds
and restores `free` and `alloc` (and the immutable `base_pfn`/`reserve`)
to their pre-allocation values — the round-trip law of the bump
allocator's stack discipline; moreover `free` reclaims only from the most
recently allocated tail: it moves exactly `nr` frames from the `alloc`
cursor back to `free`, and rejects any free exceeding the outstanding
allocation. -/
theorem vmem_altmap_alloc_free_roundtrip :
    (∀ (m m' : vmem_altmap) (nr pad : Nat),
      vmem_altmap_alloc m nr pad = some m' →
      ∃ m'' : vmem_altmap, vmem_altmap_free m' nr = some m'' ∧
        m''.free = m.free ∧ m''.alloc = m.alloc ∧
        m''.base_pfn = m.base_pfn ∧ m''.reserve = m.reserve) ∧
    (∀ (m m' : vmem_altmap) (nr : Nat),
      vmem_altmap_free m nr = some m' →
      nr ≤ m.alloc ∧ m'.alloc = m.alloc - nr ∧ m'.free = m.free + nr) ∧
    (∀ (m : vmem_altmap) (nr : Nat),
      m.alloc < nr → vmem_altmap_free m nr = none) := by
  refine ⟨?_, ?_, ?_⟩
  · intro m m' nr pad h
    simp only [vmem_altmap_alloc] at h
    split_ifs at h with hc
    · obtain ⟨hpad, hnr⟩ := hc
      injection h with h
      subst h
      refine ⟨⟨m.base_pfn, m.reserve, m.free, m.align - pad, m.alloc⟩, ?_, rfl, rfl, rfl, rfl⟩
      simp only [vmem_altmap_free]
      rw [if_pos (Nat.le_add_left nr m.alloc)]
      simp only [Nat.sub_add_cancel hnr, Nat.add_sub_cancel]
  · intro m m' nr h
    simp only [vmem_altmap_free] at h
    split_ifs at h with hc
    · injection h with h
      subst h
      exact ⟨hc, rfl, rfl⟩
  · intro m nr h
    simp only [vmem_altmap_free]
    rw [if_neg (by omega)]

/-- C5 witness: reserve 1, free 10, align budget 4, nothing allocated;
allocating 2 frames with 3 padding frames then freeing 2 restores
free to 10 and alloc to 0. -/
theorem vmem_altmap_alloc_free_roundtrip_witness :
    ∃ m'' : vmem_altmap,
      vmem_altmap_free (vmem_altmap.mk 0 1 8 1 2) 2 = some m'' ∧
      m''.free = (vmem_altmap.mk 0 1 10 4 0).free ∧
      m''.alloc = (vmem_altmap.mk 0 1 10 4 0).alloc ∧
      m''.base_pfn = (vmem_altmap.mk 0 1 10 4 0).base_pfn ∧
      m''.reserve = (vmem_altmap.mk 0 1 10 4 0).reserve :=
  vmem_altmap_alloc_free_roundtrip.1 (vmem_altmap.mk 0 1 10 4 0)
    (vmem_altmap.mk 0 1 8 1 2) 2 3 (by decide)

/-- One allocator request never increases the reservation's frame total
`reserve + free + align + alloc`. -/
theorem altmap_step_sum_le (m : vmem_altmap) (op : AltmapOp) :
    (altmap_step m op).reserve + (altmap_step m op).free +
      (altmap_step m op).align + (altmap_step m op).alloc ≤
      m.reserve + m.free + m.align + m.alloc := by
  cases op with
  | alloc nr pad =>
    simp only [altmap_step, vmem_altmap_alloc]
    split_ifs with hc
    · simp only [Option.getD_some]
      omega
    · simp only [Option.getD_none]
      omega
  | free nr =>
    simp only [altmap_step, vmem_altmap_free]
    split_ifs with hc
    · simp only [Option.getD_some]
      omega
    · simp only [Option.getD_none]
      omega

/-- A sequence of allocator requests never increases the reservation's
frame total. -/
theorem altmap_run_sum_le (m : vmem_altmap) (ops : List AltmapOp) :
    (altmap_run m ops).reserve + (altmap_run m ops).free +
      (altmap_run m ops).align + (altmap_run m ops).alloc ≤
      m.reserve + m.free + m.align + m.alloc := by
  induction ops generalizing m with
  | nil => exact Nat.le_refl _
  | cons op ops ih =>
    exact Nat.le_trans (ih (altmap_step m op)) (altmap_step_sum_le m op)

/-- C6: if the reservation starts within the backing range's total frame
count, then after every sequence of allocate/free requests the sum
`reserve + free + align + alloc` still does not exceed that total; and
`free` can never be overdrawn below zero: an allocation requesting more
than the remaining `free` frames is rejected outright. -/
theorem altmap_accounting_invariant :
    (∀ (total : Nat) (m : vmem_altmap) (ops : List AltmapOp),
      m.reserve + m.free + m.align + m.alloc ≤ total →
      (altmap_run m ops).reserve + (altmap_run m ops).free +
        (altmap_run m ops).align + (altmap_run m ops).alloc ≤ total) ∧
    (∀ (m : vmem_altmap) (nr pad : Nat),
      m.free < nr → vmem_altmap_alloc m nr pad = none) := by
  constructor
  · intro total m ops h
    exact Nat.le_trans (altmap_run_sum_le m ops) h
  · intro m nr pad h
    simp only [vmem_altmap_alloc]
    rw [if_neg (by omega)]

/-- C6 witness: a reservation summing to 15 stays within 15 after an
allocation and a partial free. -/
theorem altmap_accounting_invariant_witness :
    (altmap_run (vmem_altmap.mk 0 1 10 4 0) [AltmapOp.alloc 2 3, AltmapOp.free 1]).reserve +
      (altmap_run (vmem_altmap.mk 0 1 10 4 0) [AltmapOp.alloc 2 3, AltmapOp.free 1]).free +
      (altmap_run (vmem_altmap.mk 0 1 10 4 0) [AltmapOp.alloc 2 3, AltmapOp.free 1]).align +
      (altmap_run (vmem_altmap.mk 0 1 10 4 0) [AltmapOp.alloc 2 3, AltmapOp.free 1]).alloc ≤ 15 :=
  altmap_accounting_invariant.1 15 (vmem_altmap.mk 0 1 10 4 0)
    [AltmapOp.alloc 2 3, AltmapOp.free 1] (by decide)

/-- The lifecycle run invariant: at most one teardown, teardown happened
exactly when the count is zero, and the registry is the registration-time
one until teardown removes the region. -/
theorem pin_run_ok (g : dev_pagemap) (regs₀ : Registry) (ops : List PinOp)
    (s s' : LifecycleState) (hrun : pin_run g s ops = some s')
    (hs : s.teardowns ≤ 1 ∧ (s.count = 0 ↔ s.teardowns = 1) ∧
      (s.teardowns = 0 → s.regs = g :: regs₀) ∧
      (s.teardowns = 1 → s.regs = unregister g (g :: regs₀))) :
    s'.teardowns ≤ 1 ∧ (s'.count = 0 ↔ s'.teardowns = 1) ∧
    (s'.teardowns = 0 → s'.regs = g :: regs₀) ∧
    (s'.teardowns = 1 → s'.regs = unregister g (g :: regs₀)) := by
  induction ops generalizing s with
  | nil =>
    simp only [pin_run] at hrun
    injection hrun with hrun
    subst hrun
    exact hs
  | cons op ops ih =>
    simp only [pin_run] at hrun
    cases hstep : pin_step g s op with
    | none => rw [hstep] at hrun; cases hrun
    | some s₁ =>
      rw [hstep] at hrun
      refine ih s₁ hrun ?_
      obtain ⟨h1, h2, h3, h4⟩ := hs
      cases op with
      | acquire =>
        simp only [pin_step] at hstep
        split_ifs at hstep with hc
        injection hstep with hstep
        subst hstep
        refine ⟨h1, ?_, h3, h4⟩
        show s.count + 1 = 0 ↔ s.teardowns = 1
        omega
      | release =>
        simp only [pin_step] at hstep
        cases hcnt : s.count with
        | zero => rw [hcnt] at hstep; exact Option.noConfusion hstep
        | succ n =>
          cases n with
          | zero =>
            rw [hcnt] at hstep
            injection hstep with hstep
            subst hstep
            have ht0 : s.teardowns = 0 := by omega
            refine ⟨?_, ?_, ?_, ?_⟩
            · show s.teardowns + 1 ≤ 1
              omega
            · show 0 = 0 ↔ s.teardowns + 1 = 1
              omega
            · intro h
              exact absurd (show s.teardowns + 1 = 0 from h) (by omega)
            · intro h
              show unregister g s.regs = unregister g (g :: regs₀)
              rw [h3 ht0]
          | succ k =>
            rw [hcnt] at hstep
            injection hstep with hstep
            subst hstep
            refine ⟨h1, ?_, h3, h4⟩
            show k + 1 = 0 ↔ s.teardowns = 1
            omega

/-- After the region is removed, no remaining region's range contains a
frame of the removed region's range, so a lookup of such a frame misses. -/
theorem lookup_unregister_none (g : dev_pagemap) (regs₀ : Registry)
    (hdisj : List.Pairwise ranges_disjoint (g :: regs₀)) (pfn : Nat)
    (hin : pfn_in_range g.res pfn = true) :
    get_dev_pagemap (unregister g (g :: regs₀)) pfn = none := by
  unfold get_dev_pagemap unregister
  rw [List.find?_eq_none]
  intro x hx
  obtain ⟨hmem, hpred⟩ := List.mem_filter.mp hx
  have hne : x ≠ g := of_decide_eq_true hpred
  have hd : ranges_disjoint x g :=
    List.Pairwise.forall ranges_disjoint_symm hdisj hmem
      (List.mem_cons_self g regs₀) hne
  intro hcontra
  exact ranges_disjoint_not_both hd hcontra hin

/-- C2: starting from registration (one pin held, the region in a
pairwise-disjoint registry), along every legal sequence of
acquire/release operations teardown runs at most once, it has run exactly
once precisely when the pin count has reached zero (so any balanced
interleaving tears down exactly once), and once the count is zero every
lookup of a frame in the torn-down range returns None. -/
theorem put_dev_pagemap_teardown_exactly_once (g : dev_pagemap)
    (regs₀ : Registry) (ops : List PinOp) (s' : LifecycleState)
    (hdisj : List.Pairwise ranges_disjoint (g :: regs₀))
    (hrun : pin_run g (pin_init g regs₀) ops = some s') :
    s'.teardowns ≤ 1 ∧ (s'.count = 0 ↔ s'.teardowns = 1) ∧
    (s'.count = 0 → s'.teardowns = 1 ∧
      ∀ pfn : Nat, pfn_in_range g.res pfn = true →
        get_dev_pagemap s'.regs pfn = none) := by
  have h := pin_run_ok g regs₀ ops (pin_init g regs₀) s' hrun
    ⟨by simp [pin_init], by simp [pin_init], fun _ => rfl, by simp [pin_init]⟩
  obtain ⟨h1, h2, h3, h4⟩ := h
  refine ⟨h1, h2, ?_⟩
  intro hc0
  have ht1 := h2.mp hc0
  refine ⟨ht1, ?_⟩
  intro pfn hin
  rw [h4 ht1]
  exact lookup_unregister_none g regs₀ hdisj pfn hin

/-- C2 witness: register one region holding the pin, acquire a second
pin, release both: the run ends with one teardown, and a lookup of
frame 5 (inside the torn-down range 0..10) misses. -/
theorem put_dev_pagemap_teardown_exactly_once_witness :
    get_dev_pagemap (LifecycleState.mk [] 0 1).regs 5 = none :=
  ((put_dev_pagemap_teardown_exactly_once
      (mkRegion 0 10 memory_type.MEMORY_DEVICE_HOST true) []
      [PinOp.acquire, PinOp.release, PinOp.release]
      (LifecycleState.mk [] 0 1) (by decide) (by decide)).2.2 rfl).2 5 (by decide)

/-- The frame-release invariant for states reachable once an ordinary
holder exists: either the callback has not fired and at least two
references remain, or the callback fired exactly once and the count sits
at the floor 1. -/
theorem frame_run_inv (ops : List FrameOp) (s s' : FrameState)
    (hrun : frame_run s ops = some s')
    (hs : (s.free_calls = 0 ∧ 2 ≤ s.count) ∨ (s.free_calls = 1 ∧ s.count = 1)) :
    (s'.free_calls = 0 ∧ 2 ≤ s'.count) ∨ (s'.free_calls = 1 ∧ s'.count = 1) := by
  induction ops generalizing s with
  | nil =>
    simp only [frame_run] at hrun
    injection hrun with hrun
    subst hrun
    exact hs
  | cons op ops ih =>
    simp only [frame_run] at hrun
    cases hstep : frame_step s op with
    | none => rw [hstep] at hrun; cases hrun
    | some s₁ =>
      rw [hstep] at hrun
      refine ih s₁ hrun ?_
      cases op with
      | get =>
        simp only [frame_step] at hstep
        split_ifs at hstep with hc
        injection hstep with hstep
        subst hstep
        left
        refine ⟨hc, ?_⟩
        show 2 ≤ s.count + 1
        rcases hs with ⟨hf, hcount⟩ | ⟨hf, hcount⟩
        · omega
        · omega
      | put =>
        simp only [frame_step] at hstep
        cases hcnt : s.count with
        | zero => rw [hcnt] at hstep; cases hstep
        | succ n =>
          cases n with
          | zero => rw [hcnt] at hstep; cases hstep
          | succ k =>
            rw [hcnt] at hstep
            injection hstep with hstep
            subst hstep
            rcases hs with ⟨hf, hc⟩ | ⟨hf, hc⟩
            · cases k with
              | zero =>
                right
                refine ⟨?_, rfl⟩
                show (if (0 : Nat) = 0 then s.free_calls + 1 else s.free_calls) = 1
                rw [if_pos rfl, hf]
              | succ j =>
                left
                refine ⟨?_, ?_⟩
                · show (if j + 1 = 0 then s.free_calls + 1 else s.free_calls) = 0
                  rw [if_neg (Nat.succ_ne_zero j)]
                  exact hf
                · show 2 ≤ j + 1 + 1
                  omega
            · omega

/-- C8: along every legal reference-count history of a device-backed
frame, the refcount never reaches 0; the `page_free` callback fires at
most once; and it has fired exactly once precisely when the count has
come back down to the non-zero floor 1 after the frame was used (a
nonempty history). -/
theorem page_free_exactly_once_at_floor (ops : List FrameOp)
    (s' : FrameState) (hrun : frame_run frame_init ops = some s') :
    1 ≤ s'.count ∧ s'.free_calls ≤ 1 ∧
    (s'.free_calls = 1 ↔ s'.count = 1 ∧ ops ≠ []) := by
  cases ops with
  | nil =>
    simp only [frame_run] at hrun
    injection hrun with hrun
    subst hrun
    refine ⟨Nat.le_refl 1, Nat.zero_le 1, ?_⟩
    simp [frame_init]
  | cons op ops' =>
    simp only [frame_run] at hrun
    cases op with
    | put => exact Option.noConfusion hrun
    | get =>
      have hinv := frame_run_inv ops' (FrameState.mk 2 0) s' hrun
        (Or.inl ⟨rfl, Nat.le_refl 2⟩)
      rcases hinv with ⟨hf, hc⟩ | ⟨hf, hc⟩
      · refine ⟨by omega, by omega, ?_⟩
        constructor
        · intro h; omega
        · rintro ⟨h, -⟩; omega
      · refine ⟨by omega, by omega, ?_⟩
        constructor
        · intro h
          exact ⟨hc, by simp⟩
        · intro h
          exact hf

/-- C8 witness: hand the frame to one holder and drop the reference: the
refcount returns to the floor 1, never 0, and the callback fired exactly
once. -/
theorem page_free_exactly_once_at_floor_witness :
    1 ≤ (FrameState.mk 1 1).count ∧ (FrameState.mk 1 1).free_calls ≤ 1 ∧
    ((FrameState.mk 1 1).free_calls = 1 ↔
      (FrameState.mk 1 1).count = 1 ∧ ([FrameOp.get, FrameOp.put] : List FrameOp) ≠ []) :=
  page_free_exactly_once_at_floor [FrameOp.get, FrameOp.put]
    (FrameState.mk 1 1) (by decide)

end Memremap
